import Mathlib

/-!
Verification of the data-reconciliation engine and polling contract of
`unified_professor_grades.py` (repository GradingKaisiHai).

The Python pipeline is shallowly embedded: pandas dataframes become lists of
records, the left merge / pivot / weighted-average steps of `main` become pure
list functions, and the `wait_for_table_stabilize` polling loop becomes a
fuel-bounded recursion over an abstract stream of table shapes.

Modelling notes, matched against the source:
* `pivot_table(index=keys, columns='Grade', values='Count', aggfunc='sum')`
  groups by `keys ++ ['Grade']` with its default `dropna=True`, so a merged
  row whose `Grade` is null (a course with no matching grade record after the
  left merge) belongs to no group and produces no output row.  The embedding
  reproduces that: pivot keys are collected only from merged rows whose grade
  is present.
* Row order of the pivot (pandas sorts the group keys) is not modelled; rows
  are produced in first-occurrence order.  No claim below concerns row order.
* `Count` is modelled as `ℕ`, following the data model (a non-negative
  integer; `testing.py` casts the column with `astype(int)`).
* Floating-point rounding `Series.round(2)` is modelled over `ℚ` by
  `round2`, rounding to the nearest multiple of `1/100`.
-/

/-- The allowed-grade enumeration, `ALLOWED_GRADES` of
`unified_professor_grades.py` (line 31; the canonical variant that
includes `E`). -/
def ALLOWED_GRADES : List String :=
  ["A*", "A", "B+", "B", "C+", "C", "D+", "D", "E", "F", "S", "X"]

/-- The `grade_points` dict of `main` (lines 218-221), in insertion order:
only the letter grades that carry numeric weight; `S` and `X` are absent. -/
def gradePoints : List (String × ℕ) :=
  [("A*", 10), ("A", 10), ("B+", 9), ("B", 8), ("C+", 7),
   ("C", 6), ("D+", 5), ("D", 4), ("E", 0), ("F", 0)]

/-- The `str.strip()` normalisation applied by `main` (lines 193-195):
drops leading and trailing whitespace.  (Defined over the character list so
that it evaluates by kernel reduction; `String.trim` is extensionally the
same but is defined by well-founded recursion.) -/
def pyStrip (s : String) : String :=
  ⟨((s.data.dropWhile Char.isWhitespace).reverse.dropWhile
      Char.isWhitespace).reverse⟩

/-- A row of `courses_df`: one course offering, with `Semester` already an
integer (`astype(int)`, line 196). -/
structure CourseRecord where
  Year : String
  Semester : Int
  Course : String
deriving DecidableEq

/-- A row of `grades_df` as read from `grades.xlsx`: `Count` is a
non-negative integer per the data model. -/
structure GradeRecord where
  Year : String
  Semester : Int
  Course : String
  Grade : String
  Count : ℕ
deriving DecidableEq

/-- The join key `['Year', 'Semester', 'Course']`. -/
abbrev Key := String × Int × String

/-- Key of a course row, with the `astype(str).str.strip()` normalisation of
lines 193-195 applied to `Year` and `Course`. -/
def CourseRecord.key (c : CourseRecord) : Key :=
  (pyStrip c.Year, c.Semester, pyStrip c.Course)

/-- Key of a grade row, with the same normalisation. -/
def GradeRecord.key (g : GradeRecord) : Key :=
  (pyStrip g.Year, g.Semester, pyStrip g.Course)

/-- One row of `merged` (line 199): the join key plus the attached grade
columns, which are null when the course had no matching grade record. -/
structure MergedRow where
  key : Key
  Grade : Option String
  Count : Option ℕ
deriving DecidableEq

/-- The filter `grades_df[grades_df['Grade'].isin(ALLOWED_GRADES)]`
(line 191). -/
def filterGrades (grades : List GradeRecord) : List GradeRecord :=
  grades.filter fun g => ALLOWED_GRADES.contains g.Grade

/-- `pd.merge(courses_df, grades_df, on=['Year','Semester','Course'],
how='left')` (lines 199-203): each course row is expanded by its matching
grade rows, and a course with no match keeps a single row with null grade
columns. -/
def mergeLeft (courses : List CourseRecord) (grades : List GradeRecord) :
    List MergedRow :=
  courses.flatMap fun c =>
    let ms := grades.filter fun g => decide (g.key = c.key)
    if ms.isEmpty then [⟨c.key, none, none⟩]
    else ms.map fun g => ⟨c.key, some g.Grade, some g.Count⟩

/-- The aggregated cell of the pivot (lines 205-211): the summed `Count`
over merged rows of group `(k, g)` (`aggfunc='sum'`, `fill_value=0`).
Together with the reindex of line 214 this is total for every allowed
grade, defaulting to `0`. -/
def countAt (merged : List MergedRow) (k : Key) (g : String) : ℕ :=
  (merged.map fun m =>
    if m.key = k ∧ m.Grade = some g then m.Count.getD 0 else 0).sum

/-- First-occurrence deduplication (helper for the pivot's group keys). -/
def dedupKeys : List Key → List Key
  | [] => []
  | k :: ks => k :: (dedupKeys ks).filter fun x => decide (¬ x = k)

/-- The row index of the pivot: the distinct join keys among merged rows
whose `Grade` is non-null.  `pivot_table` groups by
`['Year','Semester','Course','Grade']` with `dropna=True`, so rows whose
`Grade` is null join no group and contribute no pivot row. -/
def pivotKeys (merged : List MergedRow) : List Key :=
  dedupKeys (merged.filterMap fun m =>
    if m.Grade.isSome then some m.key else none)

/-- `weighted_sum` for one row (lines 224-228): iterate the `grade_points`
dict, accumulating `count * points`. -/
def wsAt (merged : List MergedRow) (k : Key) : ℕ :=
  (gradePoints.map fun p => countAt merged k p.1 * p.2).sum

/-- `total_counts` for one row (lines 224-228): the same iteration,
accumulating the counts alone, so `S` and `X` are excluded. -/
def tcAt (merged : List MergedRow) (k : Key) : ℕ :=
  (gradePoints.map fun p => countAt merged k p.1).sum

/-- Rounding to 2 decimal places (`Series.round(2)`, line 240), modelled
over `ℚ`. -/
def round2 (q : ℚ) : ℚ := (round (q * 100) : ℚ) / 100

/-- One output row of the reconciled table: the group key, the
grade-count columns produced by the reindex of line 214 (one per
`ALLOWED_GRADES`, in order), `Total` (line 231) and `Avg.`
(lines 233-240, null when `total_counts` is zero). -/
structure ReconciledRow where
  key : Key
  cols : List (String × ℕ)
  Total : ℕ
  Avg : Option ℚ
deriving DecidableEq

/-- The count column of a row for grade `g` (`0` when absent). -/
def countOf (r : ReconciledRow) (g : String) : ℕ :=
  (r.cols.lookup g).getD 0

/-- Assembles the output row of one pivot group: the reindexed columns, the
`Total` over all of `ALLOWED_GRADES` (line 231), and the rounded average
guarded by `np.where(total_counts > 0, ..., np.nan)` (lines 233-240). -/
def mkRow (merged : List MergedRow) (k : Key) : ReconciledRow :=
  { key := k
    cols := ALLOWED_GRADES.map fun g => (g, countAt merged k g)
    Total := (ALLOWED_GRADES.map (countAt merged k)).sum
    Avg := if 0 < tcAt merged k then
             some (round2 ((wsAt merged k : ℚ) / (tcAt merged k : ℚ)))
           else none }

/-- The reconciliation engine of `main` (lines 190-245): filter the grade
store to the allowed grades, left-merge, pivot, reindex, and compute
`Total` and `Avg.` per row. -/
def reconcile (courses : List CourseRecord) (grades : List GradeRecord) :
    List ReconciledRow :=
  let merged := mergeLeft courses (filterGrades grades)
  (pivotKeys merged).map (mkRow merged)

/-- `weighted_sum` recomputed from an output row's columns (the form the
spec states it in). -/
def rowWeightedSum (r : ReconciledRow) : ℕ :=
  (gradePoints.map fun p => countOf r p.1 * p.2).sum

/-- `total_counts` recomputed from an output row's columns. -/
def rowTotalCounts (r : ReconciledRow) : ℕ :=
  (gradePoints.map fun p => countOf r p.1).sum

/-- The course of the spec's concrete scenario. -/
def demoCourse : CourseRecord := ⟨"2023-24", 1, "CS101"⟩

/-- The grade records of the spec's concrete scenario:
`A=10`, `B=5`, `S=2`. -/
def demoGrades : List GradeRecord :=
  [⟨"2023-24", 1, "CS101", "A", 10⟩,
   ⟨"2023-24", 1, "CS101", "B", 5⟩,
   ⟨"2023-24", 1, "CS101", "S", 2⟩]

/-- The merged table of the concrete scenario. -/
def demoMerged : List MergedRow := mergeLeft [demoCourse] (filterGrades demoGrades)

/-- The single output row of the concrete scenario. -/
def demoRow : ReconciledRow := mkRow demoMerged ("2023-24", 1, "CS101")

/-- The rounded average as pure natural-number arithmetic:
`(200 * ws + tc) / (2 * tc)` hundredths.  Used to evaluate `round2` on
concrete inputs. -/
def avgCenti (ws tc : ℕ) : ℕ := (200 * ws + tc) / (2 * tc)

/-! ### The table-stabilization poller (`wait_for_table_stabilize`) -/

/-- The `stable_secs` counter after `t` iterations of the polling loop
(lines 56-89): iteration `i` samples shape `s (i - 1)`; the first sample
never increments the counter (`last_df is None`), afterwards an unchanged
shape increments it and a changed shape resets it to `0`. -/
def stableAfter (s : ℕ → ℕ × ℕ) : ℕ → ℕ
  | 0 => 0
  | 1 => 0
  | t + 2 => if s (t + 1) = s t then stableAfter s (t + 1) + 1 else 0

/-- The loop's exit test at the end of iteration `t` (lines 82-87):
`stable_secs >= stable_duration`, or elapsed time
(`t - 1` seconds, one `time.sleep(1)` between iterations) exceeding
`max_wait`. -/
def stopBreak (s : ℕ → ℕ × ℕ) (stableFor maxWait t : ℕ) : Bool :=
  decide (stableFor ≤ stableAfter s t) || decide (maxWait < t - 1)

/-- Fuel-bounded search for the first breaking iteration, starting at
iteration `t`. -/
def stopFrom (s : ℕ → ℕ × ℕ) (stableFor maxWait : ℕ) : ℕ → ℕ → ℕ
  | 0, t => t
  | fuel + 1, t =>
    if stopBreak s stableFor maxWait t then t
    else stopFrom s stableFor maxWait fuel (t + 1)

/-- The iteration (1-based tick) at which `wait_for_table_stabilize`
returns, given the stream of table shapes it observes.  The elapsed-time
ceiling guarantees a break by iteration `maxWait + 2`, so that much fuel
suffices. -/
def pollStopTick (s : ℕ → ℕ × ℕ) (stableFor maxWait : ℕ) : ℕ :=
  stopFrom s stableFor maxWait (maxWait + 2) 1

/-- The simulated shape sequence of the spec's stabilization scenario:
`(5,3), (5,3)` then `(6,3)` from the third sample on. -/
def demoStream : ℕ → ℕ × ℕ := fun i => if i < 2 then (5, 3) else (6, 3)

/-- A constant shape stream (used to exercise the stability bound on a
concrete input). -/
def demoConstStream : ℕ → ℕ × ℕ := fun _ => (4, 2)

/-! ### The course extractor (`get_professor_courses`, lines 124-133) -/

/-- A course row as extracted from the table, all cells still strings
(`Semester` is parsed only at reconciliation time). -/
structure RawCourse where
  Year : String
  Semester : String
  Course : String
deriving DecidableEq

/-- Errors of one query.  `keyError` is the uncaught exception raised by
`df[['Year','Semester','Course']]` when a column is missing;
`valueError` the one raised by `astype(int)` on a non-numeric semester;
`webFail` any error raised by the browser steps. -/
inductive QueryError where
  | keyError
  | valueError
  | webFail
deriving DecidableEq

/-- The column rename of line 128: `ACADEMIC YEAR -> Year`,
`SEM -> Semester`, `COURSE NAME -> Course`, all other names kept. -/
def renameHeader (h : String) : String :=
  if h = "ACADEMIC YEAR" then "Year"
  else if h = "SEM" then "Semester"
  else if h = "COURSE NAME" then "Course"
  else h

/-- Whether the selection `df[['Year','Semester','Course']]` can succeed:
all three names occur in the renamed header row. -/
def headersPresent (header : List String) : Bool :=
  ((header.map renameHeader).findIdx? (· = "Year")).isSome &&
  ((header.map renameHeader).findIdx? (· = "Semester")).isSome &&
  ((header.map renameHeader).findIdx? (· = "Course")).isSome

/-- The course extractor (lines 124-133): row 0 is taken as the header
(`raw.columns = raw.iloc[0]`) and dropped (`raw.drop(index=0)`); the
renamed `Year`, `Semester`, `Course` columns are selected from the
remaining rows in order.  A missing column makes the selection raise
`KeyError`; the exception is not caught anywhere in the program. -/
def extractCourses (snapshot : List (List String)) :
    Except QueryError (List RawCourse) :=
  match snapshot with
  | [] => .error .keyError
  | header :: rows =>
    let renamed := header.map renameHeader
    match renamed.findIdx? (· = "Year"), renamed.findIdx? (· = "Semester"),
        renamed.findIdx? (· = "Course") with
    | some iy, some isem, some ic =>
      .ok (rows.map fun r => ⟨r.getD iy "", r.getD isem "", r.getD ic ""⟩)
    | _, _, _ => .error .keyError

/-- `astype(int)` on one extracted row (lines 194-197): parse `Semester`,
keeping `Year` and `Course` as strings. -/
def parseCourse (r : RawCourse) : Option CourseRecord :=
  ((pyStrip r.Semester).toInt?).map fun n => ⟨r.Year, n, r.Course⟩

/-- Outcome of one professor query that did not raise: either the
"No courses found for this professor." message followed by `continue`
(lines 187-189), or the reconciled report (lines 247-251). -/
inductive QueryOutcome where
  | noCourses
  | report (rows : List ReconciledRow)
deriving DecidableEq

/-- The per-query body of `main` from the point where the course table has
been extracted (lines 187-245): short-circuit on an empty course list,
otherwise reconcile. -/
def processQuery (courses : List CourseRecord) (grades : List GradeRecord) :
    QueryOutcome :=
  if courses.isEmpty then .noCourses
  else .report (reconcile courses grades)

/-- One whole query of `main` (lines 185-245) from a raw snapshot:
extraction errors propagate (there is no `try` around
`get_professor_courses` or the `astype` calls, so they crash the query
loop), an empty extraction reports "no courses found", and otherwise the
reconciled table is produced. -/
def runQuery (snapshot : List (List String)) (grades : List GradeRecord) :
    Except QueryError QueryOutcome :=
  match extractCourses snapshot with
  | .error e => .error e
  | .ok raws =>
    match raws.mapM parseCourse with
    | none => .error .valueError
    | some cs => .ok (processQuery cs grades)

/-! ### Browser-session lifecycle (`get_professor_courses`, lines 97-135) -/

/-- Observable resource events of one query: the `webdriver.Chrome(...)`
acquisition, the numbered browser steps inside the `try` block, the final
parse, and the `driver.quit()` of the `finally` block. -/
inductive Ev where
  | acquire
  | step (n : ℕ)
  | parse
  | release
deriving DecidableEq

/-- A result paired with the resource events it emitted. -/
structure Trace (α : Type) where
  result : Except QueryError α
  events : List Ev

/-- Sequencing with exception semantics: a raised error skips the rest of
the `try` block but keeps the events already emitted. -/
def tbind {α β : Type} (x : Trace α) (f : α → Trace β) : Trace β :=
  match x.result with
  | .error e => ⟨.error e, x.events⟩
  | .ok a => ⟨(f a).result, x.events ++ (f a).events⟩

/-- `try ... finally cleanup`: the cleanup events run whether or not the
body raised. -/
def tfinally {α : Type} (x : Trace α) (cleanup : List Ev) : Trace α :=
  ⟨x.result, x.events ++ cleanup⟩

/-- One browser step of the `try` block: `driver.get`, the waits, the
form fill, the click, the frame switch — each may raise. -/
def tstep (n : ℕ) (ok : Bool) : Trace Unit :=
  ⟨if ok then .ok () else .error .webFail, [.step n]⟩

/-- The behaviour of the external browser during one query: whether each
step of `get_professor_courses` succeeds, and the table snapshot the final
parse sees. -/
structure Behavior where
  navigateOk : Bool
  formFoundOk : Bool
  sendKeysOk : Bool
  clickOk : Bool
  frameOk : Bool
  tableFoundOk : Bool
  snapshot : List (List String)

/-- `get_professor_courses` (lines 97-135) as a resource trace: the driver
is acquired, the browser steps run inside `try`, the table is parsed and
extracted, and `finally: driver.quit()` releases the session on every
path.  (`wait_for_table_stabilize` performs no resource action and never
raises, lines 63-67 catching the only parse error.) -/
def getProfessorCoursesRun (b : Behavior) : Trace (List RawCourse) :=
  tfinally
    (tbind (⟨.ok (), [Ev.acquire]⟩ : Trace Unit) fun _ =>
      tbind (tstep 0 b.navigateOk) fun _ =>
        tbind (tstep 1 b.formFoundOk) fun _ =>
          tbind (tstep 2 b.sendKeysOk) fun _ =>
            tbind (tstep 3 b.clickOk) fun _ =>
              tbind (tstep 4 b.frameOk) fun _ =>
                tbind (tstep 5 b.tableFoundOk) fun _ =>
                  ⟨extractCourses b.snapshot, [Ev.parse]⟩)
    [Ev.release]

/-! ### Arithmetic facts about `round2` -/

lemma round2_div_eq (ws tc : ℕ) (h : 0 < tc) :
    round2 ((ws : ℚ) / (tc : ℚ)) = ((avgCenti ws tc : ℕ) : ℚ) / 100 := by
  have htc : (tc : ℚ) ≠ 0 := Nat.cast_ne_zero.mpr h.ne'
  rw [round2, round_eq]
  have h1 : (ws : ℚ) / tc * 100 + 1 / 2
      = (((200 * ws + tc : ℕ) : ℤ) : ℚ) / ((2 * tc : ℕ) : ℚ) := by
    push_cast
    field_simp
    ring
  rw [h1, Rat.floor_intCast_div_natCast]
  have h2 : ((200 * ws + tc : ℕ) : ℤ) / ((2 * tc : ℕ) : ℤ)
      = ((avgCenti ws tc : ℕ) : ℤ) := (Int.natCast_div _ _)
  rw [h2]
  push_cast
  ring

lemma round2_nonneg (q : ℚ) (h : 0 ≤ q) : 0 ≤ round2 q := by
  have : (0 : ℤ) ≤ round (q * 100) := by
    rw [round_eq]
    apply Int.floor_nonneg.mpr
    positivity
  unfold round2
  positivity

lemma round2_le_ten (q : ℚ) (h : q ≤ 10) : round2 q ≤ 10 := by
  have h1 : round (q * 100) ≤ 1000 := by
    rw [round_eq]
    have h2 : q * 100 + 1 / 2 ≤ (((2001 : ℕ) : ℤ) : ℚ) / ((2 : ℕ) : ℚ) := by
      push_cast
      linarith
    calc ⌊q * 100 + 1 / 2⌋ ≤ ⌊(((2001 : ℕ) : ℤ) : ℚ) / ((2 : ℕ) : ℚ)⌋ :=
          Int.floor_le_floor h2
      _ = 1000 := by rw [Rat.floor_intCast_div_natCast]; decide
  unfold round2
  rw [div_le_iff₀ (by norm_num : (0 : ℚ) < 100)]
  calc (round (q * 100) : ℚ) ≤ (1000 : ℤ) := by exact_mod_cast h1
    _ = 10 * 100 := by norm_num

/-! ### Structural lemmas about output rows -/

lemma lookup_map_self {α β : Type} [DecidableEq α] (l : List α) (f : α → β)
    (a : α) :
    a ∈ l → (l.map fun x => (x, f x)).lookup a = some (f a) := by
  induction l with
  | nil => intro h; cases h
  | cons x xs ih =>
    intro h
    by_cases hax : a = x
    · subst hax
      simp [List.lookup]
    · have h2 : a ∈ xs := by
        rcases List.mem_cons.1 h with h1 | h1
        · exact absurd h1 hax
        · exact h1
      have hbeq : (a == x) = false := beq_eq_false_iff_ne.mpr hax
      simp [List.lookup, hbeq, ih h2]

lemma countOf_mkRow (m : List MergedRow) (k : Key) (g : String)
    (hg : g ∈ ALLOWED_GRADES) :
    countOf (mkRow m k) g = countAt m k g := by
  unfold countOf mkRow
  rw [lookup_map_self ALLOWED_GRADES (countAt m k) g hg]
  rfl

lemma gradePoints_mem_allowed : ∀ p ∈ gradePoints, p.1 ∈ ALLOWED_GRADES := by
  decide

lemma rowWeightedSum_mkRow (m : List MergedRow) (k : Key) :
    rowWeightedSum (mkRow m k) = wsAt m k := by
  unfold rowWeightedSum wsAt
  have hmap : (gradePoints.map fun p => countOf (mkRow m k) p.1 * p.2)
      = gradePoints.map fun p => countAt m k p.1 * p.2 :=
    List.map_congr_left fun p hp => by
      rw [countOf_mkRow m k p.1 (gradePoints_mem_allowed p hp)]
  rw [hmap]

lemma rowTotalCounts_mkRow (m : List MergedRow) (k : Key) :
    rowTotalCounts (mkRow m k) = tcAt m k := by
  unfold rowTotalCounts tcAt
  have hmap : (gradePoints.map fun p => countOf (mkRow m k) p.1)
      = gradePoints.map fun p => countAt m k p.1 :=
    List.map_congr_left fun p hp => by
      rw [countOf_mkRow m k p.1 (gradePoints_mem_allowed p hp)]
  rw [hmap]

lemma mem_reconcile {courses : List CourseRecord} {grades : List GradeRecord}
    {r : ReconciledRow} (hr : r ∈ reconcile courses grades) :
    ∃ k, r = mkRow (mergeLeft courses (filterGrades grades)) k := by
  unfold reconcile at hr
  rcases List.mem_map.1 hr with ⟨k, _, hk⟩
  exact ⟨k, hk.symm⟩

/-! ### Remaining support lemmas -/

lemma avg_mkRow (m : List MergedRow) (k : Key) :
    (mkRow m k).Avg = if 0 < tcAt m k then
      some (round2 ((wsAt m k : ℚ) / (tcAt m k : ℚ)))
    else none := rfl

lemma total_mkRow (m : List MergedRow) (k : Key) :
    (mkRow m k).Total = (ALLOWED_GRADES.map (countAt m k)).sum := rfl

lemma cols_mkRow (m : List MergedRow) (k : Key) :
    (mkRow m k).cols = ALLOWED_GRADES.map fun g => (g, countAt m k g) := rfl

lemma mergeLeft_grade_mem {courses : List CourseRecord}
    {gs : List GradeRecord} {m : MergedRow} {g : String}
    (hm : m ∈ mergeLeft courses gs) (hg : m.Grade = some g) :
    ∃ gr ∈ gs, gr.Grade = g := by
  unfold mergeLeft at hm
  rcases List.mem_flatMap.1 hm with ⟨c, _, hmc⟩
  dsimp only at hmc
  by_cases hempty : (gs.filter fun g => decide (g.key = c.key)).isEmpty
  · rw [if_pos hempty] at hmc
    rcases List.mem_singleton.1 hmc with rfl
    cases hg
  · rw [if_neg hempty] at hmc
    rcases List.mem_map.1 hmc with ⟨gr, hgr, hmgr⟩
    refine ⟨gr, List.mem_of_mem_filter hgr, ?_⟩
    rw [← hmgr] at hg
    exact Option.some_inj.1 hg

lemma countAt_eq_zero {merged : List MergedRow} {k : Key} {g : String}
    (h : ∀ m ∈ merged, m.Grade ≠ some g) : countAt merged k g = 0 := by
  unfold countAt
  apply List.sum_eq_zero
  intro x hx
  rcases List.mem_map.1 hx with ⟨m, hm, hxm⟩
  rw [← hxm, if_neg]
  rintro ⟨-, hgr⟩
  exact h m hm hgr

lemma sum_map_le_ten (c : String → ℕ) (l : List (String × ℕ))
    (hb : ∀ p ∈ l, p.2 ≤ 10) :
    (l.map fun p => c p.1 * p.2).sum ≤ 10 * (l.map fun p => c p.1).sum := by
  induction l with
  | nil => simp
  | cons x xs ih =>
    simp only [List.map_cons, List.sum_cons, Nat.mul_add]
    have h1 : c x.1 * x.2 ≤ c x.1 * 10 :=
      Nat.mul_le_mul_left _ (hb x (List.mem_cons_self x xs))
    have h2 := ih fun p hp => hb p (List.mem_cons_of_mem x hp)
    calc c x.1 * x.2 + (xs.map fun p => c p.1 * p.2).sum
        ≤ c x.1 * 10 + 10 * (xs.map fun p => c p.1).sum := Nat.add_le_add h1 h2
      _ = 10 * c x.1 + 10 * (xs.map fun p => c p.1).sum := by ring

lemma wsAt_le (m : List MergedRow) (k : Key) : wsAt m k ≤ 10 * tcAt m k :=
  sum_map_le_ten (countAt m k) gradePoints (by decide)

/-! ### Poller lemmas -/

lemma stableAfter_le (s : ℕ → ℕ × ℕ) : ∀ t, stableAfter s t ≤ t - 1 := by
  intro t
  induction t using Nat.strong_induction_on with
  | _ t ih =>
    match t with
    | 0 => simp [stableAfter]
    | 1 => simp [stableAfter]
    | t + 2 =>
      unfold stableAfter
      split
      · have h := ih (t + 1) (by omega)
        omega
      · omega

lemma stopFrom_spec (s : ℕ → ℕ × ℕ) (sf mw : ℕ) :
    ∀ fuel t, (∃ u, t ≤ u ∧ u < t + fuel ∧ stopBreak s sf mw u = true) →
      stopBreak s sf mw (stopFrom s sf mw fuel t) = true ∧
      t ≤ stopFrom s sf mw fuel t ∧
      ∀ u, t ≤ u → u < stopFrom s sf mw fuel t →
        stopBreak s sf mw u = false := by
  intro fuel
  induction fuel with
  | zero =>
    rintro t ⟨u, hu1, hu2, -⟩
    omega
  | succ n ih =>
    intro t hex
    by_cases hb : stopBreak s sf mw t = true
    · refine ⟨?_, ?_, ?_⟩
      · rw [stopFrom, if_pos hb]
        exact hb
      · rw [stopFrom, if_pos hb]
      · rw [stopFrom, if_pos hb]
        intro u h1 h2
        omega
    · have hb' : stopBreak s sf mw t = false := by
        revert hb
        cases stopBreak s sf mw t <;> simp
      rcases hex with ⟨u, hu1, hu2, hu3⟩
      have hu1' : t + 1 ≤ u := by
        rcases Nat.eq_or_lt_of_le hu1 with h | h
        · subst h
          rw [hu3] at hb'
          cases hb'
        · exact h
      obtain ⟨h1, h2, h3⟩ := ih (t + 1) ⟨u, hu1', by omega, hu3⟩
      refine ⟨?_, ?_, ?_⟩
      · rw [stopFrom, if_neg hb]
        exact h1
      · rw [stopFrom, if_neg hb]
        omega
      · rw [stopFrom, if_neg hb]
        intro v hv1 hv2
        rcases Nat.eq_or_lt_of_le hv1 with h | h
        · subst h
          exact hb'
        · exact h3 v h hv2

lemma pollStopTick_spec (s : ℕ → ℕ × ℕ) (sf mw : ℕ) :
    stopBreak s sf mw (pollStopTick s sf mw) = true ∧
    1 ≤ pollStopTick s sf mw ∧
    ∀ u, 1 ≤ u → u < pollStopTick s sf mw → stopBreak s sf mw u = false := by
  apply stopFrom_spec
  refine ⟨mw + 2, by omega, by omega, ?_⟩
  unfold stopBreak
  simp only [Bool.or_eq_true, decide_eq_true_eq]
  right
  omega

/-! ### Lemmas about the concrete scenario -/

lemma reconcile_demo : reconcile [demoCourse] demoGrades = [demoRow] := rfl

lemma demoRow_mem : demoRow ∈ reconcile [demoCourse] demoGrades := by
  rw [reconcile_demo]
  exact List.mem_singleton_self _

lemma demoRow_avg : demoRow.Avg = some ((933 : ℚ) / 100) := by
  have htc : tcAt demoMerged ("2023-24", 1, "CS101") = 15 := by decide
  have hws : wsAt demoMerged ("2023-24", 1, "CS101") = 140 := by decide
  have h0 : demoRow.Avg = (mkRow demoMerged ("2023-24", 1, "CS101")).Avg := rfl
  rw [h0, avg_mkRow, htc, hws, if_pos (by norm_num : (0 : ℕ) < 15),
    round2_div_eq 140 15 (by norm_num)]
  norm_num [avgCenti]

lemma lookup_map_none {α β : Type} [DecidableEq α] (l : List α) (f : α → β)
    (a : α) : a ∉ l → (l.map fun x => (x, f x)).lookup a = none := by
  induction l with
  | nil => intro h; rfl
  | cons x xs ih =>
    intro h
    have hax : ¬ a = x := fun hh => h (hh ▸ List.mem_cons_self x xs)
    have hbeq : (a == x) = false := beq_eq_false_iff_ne.mpr hax
    have h2 : a ∉ xs := fun hh => h (List.mem_cons_of_mem x hh)
    simp [List.lookup, hbeq, ih h2]

/-! ### The claims -/

/-- C1, amended: for every row of the reconciled output, `Avg` is
null exactly when the weighted-grade denominator `total_counts` is zero,
and otherwise equals `weighted_sum / total_counts` rounded to 2 decimal
places, both sums ranging over the weighted grades
{A*:10, A:10, B+:9, B:8, C+:7, C:6, D+:5, D:4, E:0, F:0} (S and X
excluded); on the concrete input with course (2023-24, 1, CS101) and
grade records A=10, B=5, S=2 the single output row has Avg = 9.33
(the claimed 8.67 rests on the spec's arithmetic slip 10*10 + 5*8 = 130;
the sum is 140 and round2(140/15) = 9.33). -/
theorem c1_avg_formula :
    (∀ (courses : List CourseRecord) (grades : List GradeRecord)
        (r : ReconciledRow), r ∈ reconcile courses grades →
      (r.Avg = none ↔ rowTotalCounts r = 0) ∧
      (0 < rowTotalCounts r →
        r.Avg = some (round2
          ((rowWeightedSum r : ℚ) / (rowTotalCounts r : ℚ))))) ∧
    (reconcile [demoCourse] demoGrades).map (fun r => r.Avg)
      = [some ((933 : ℚ) / 100)] := by
  constructor
  · intro courses grades r hr
    obtain ⟨k, rfl⟩ := mem_reconcile hr
    rw [avg_mkRow, rowTotalCounts_mkRow, rowWeightedSum_mkRow]
    constructor
    · rcases Nat.eq_zero_or_pos
          (tcAt (mergeLeft courses (filterGrades grades)) k) with h0 | hpos
      · simp [h0]
      · rw [if_pos hpos]
        simp [hpos.ne']
    · intro hpos
      rw [if_pos hpos]
  · rw [reconcile_demo]
    simp [demoRow_avg]

/-- C1, witness: the amended formula instantiated on the concrete
scenario row. -/
theorem c1_avg_formula_witness :
    demoRow.Avg = some (round2
      ((rowWeightedSum demoRow : ℚ) / (rowTotalCounts demoRow : ℚ))) :=
  (c1_avg_formula.1 [demoCourse] demoGrades demoRow demoRow_mem).2
    (by decide)

/-- C1, counterexample: on the spec's concrete scenario the output row's
Avg is 9.33, not the claimed 8.67. -/
theorem c1_counterexample :
    (reconcile [demoCourse] demoGrades).map (fun r => r.Avg)
      ≠ [some ((867 : ℚ) / 100)] := by
  have h1 : (reconcile [demoCourse] demoGrades).map (fun r => r.Avg)
      = [some ((933 : ℚ) / 100)] := by
    rw [reconcile_demo]
    simp [demoRow_avg]
  rw [h1]
  simp only [ne_eq, List.cons.injEq, and_true, Option.some.injEq]
  norm_num

/-- C2, code evaluation: a course with zero matching grade records
survives the left merge (one row, null grade columns) and is then dropped
entirely by the pivot, so the reconciled output has no row for it at all
— not a row of zeros with null Avg. -/
theorem c2_dropped_course :
    mergeLeft [demoCourse] (filterGrades [⟨"2023-24", 1, "MA101", "A", 7⟩])
      = [⟨("2023-24", 1, "CS101"), none, none⟩] ∧
    reconcile [demoCourse] [⟨"2023-24", 1, "MA101", "A", 7⟩] = [] := by
  exact ⟨by decide, by decide⟩

/-- C3: every reconciled row's Total equals the sum of its count columns
over the full ALLOWED_GRADES enumeration (S and X included); the value is
a natural number, hence an integer. -/
theorem c3_total_invariant :
    ∀ (courses : List CourseRecord) (grades : List GradeRecord)
      (r : ReconciledRow), r ∈ reconcile courses grades →
      r.Total = (ALLOWED_GRADES.map fun g => countOf r g).sum := by
  intro courses grades r hr
  obtain ⟨k, rfl⟩ := mem_reconcile hr
  rw [total_mkRow]
  have hmap : (ALLOWED_GRADES.map fun g =>
        countOf (mkRow (mergeLeft courses (filterGrades grades)) k) g)
      = ALLOWED_GRADES.map (countAt (mergeLeft courses (filterGrades grades)) k) :=
    List.map_congr_left fun g hg => countOf_mkRow _ _ g hg
  rw [hmap]

/-- C3, witness: the invariant instantiated on the concrete scenario
row. -/
theorem c3_total_invariant_witness :
    demoRow.Total = (ALLOWED_GRADES.map fun g => countOf demoRow g).sum :=
  c3_total_invariant [demoCourse] demoGrades demoRow demoRow_mem

/-- C4: every reconciled row carries exactly the ALLOWED_GRADES columns in
order; each allowed grade appears with its count; a grade matched by no
(filtered) grade record has count 0; and every count is non-negative. -/
theorem c4_pivot_complete :
    ∀ (courses : List CourseRecord) (grades : List GradeRecord)
      (r : ReconciledRow), r ∈ reconcile courses grades →
      (r.cols.map Prod.fst = ALLOWED_GRADES) ∧
      (∀ g ∈ ALLOWED_GRADES, (g, countOf r g) ∈ r.cols) ∧
      (∀ g : String, (∀ gr ∈ filterGrades grades, gr.Grade ≠ g) →
        countOf r g = 0) ∧
      (∀ g : String, 0 ≤ (countOf r g : ℤ)) := by
  intro courses grades r hr
  obtain ⟨k, rfl⟩ := mem_reconcile hr
  refine ⟨?_, ?_, ?_, ?_⟩
  · rw [cols_mkRow, List.map_map]
    rfl
  · intro g hg
    rw [countOf_mkRow _ _ g hg, cols_mkRow]
    exact List.mem_map_of_mem _ hg
  · intro g hnone
    by_cases hg : g ∈ ALLOWED_GRADES
    · rw [countOf_mkRow _ _ g hg]
      apply countAt_eq_zero
      intro m hm hsome
      rcases mergeLeft_grade_mem hm hsome with ⟨gr, hgr, hgrg⟩
      exact hnone gr hgr hgrg
    · unfold countOf
      rw [cols_mkRow, lookup_map_none _ _ g hg]
      rfl
  · intro g
    exact_mod_cast Nat.zero_le _

/-- C4, witness: the column-completeness facts on the concrete scenario
row, including the E column, which no grade record matches. -/
theorem c4_pivot_complete_witness :
    demoRow.cols.map Prod.fst = ALLOWED_GRADES ∧
    ("E", countOf demoRow "E") ∈ demoRow.cols := by
  have h := c4_pivot_complete [demoCourse] demoGrades demoRow demoRow_mem
  exact ⟨h.1, h.2.1 "E" (by decide)⟩

/-- C8: on any input, a reconciled row whose weighted-grade denominator is
positive has an Avg value between 0 and 10. -/
theorem c8_avg_bounds :
    ∀ (courses : List CourseRecord) (grades : List GradeRecord)
      (r : ReconciledRow), r ∈ reconcile courses grades →
      0 < rowTotalCounts r →
      ∃ a : ℚ, r.Avg = some a ∧ 0 ≤ a ∧ a ≤ 10 := by
  intro courses grades r hr hpos
  obtain ⟨k, rfl⟩ := mem_reconcile hr
  rw [rowTotalCounts_mkRow] at hpos
  rw [avg_mkRow, if_pos hpos]
  refine ⟨_, rfl, ?_, ?_⟩
  · apply round2_nonneg
    positivity
  · apply round2_le_ten
    have htc : (0 : ℚ) < (tcAt (mergeLeft courses (filterGrades grades)) k : ℚ) := by
      exact_mod_cast hpos
    rw [div_le_iff₀ htc]
    calc (wsAt (mergeLeft courses (filterGrades grades)) k : ℚ)
        ≤ ((10 * tcAt (mergeLeft courses (filterGrades grades)) k : ℕ) : ℚ) := by
          exact_mod_cast wsAt_le _ k
      _ = 10 * (tcAt (mergeLeft courses (filterGrades grades)) k : ℚ) := by
          push_cast
          ring

/-- C8, witness: the bounds instantiated on the concrete scenario row,
whose denominator is 15. -/
theorem c8_avg_bounds_witness :
    ∃ a : ℚ, demoRow.Avg = some a ∧ 0 ≤ a ∧ a ≤ 10 :=
  c8_avg_bounds [demoCourse] demoGrades demoRow demoRow_mem (by decide)

/-- C5, amended: the poller stops at the first tick at which its exit test
holds — the unchanged-counter having reached `stable_duration`, or the
elapsed time having exceeded `max_wait`, whichever comes first — and on
the simulated shape sequence (5,3), (5,3), then (6,3) onward, with
`stableDuration = 6` and `maxWait = 60`, it stops exactly at tick 9: the
counter counts unchanged transitions, so after the change at tick 3 it
first reaches 6 at tick 9, not tick 8. -/
theorem c5_poller_stop :
    (∀ (s : ℕ → ℕ × ℕ) (stableFor maxWait : ℕ),
      stopBreak s stableFor maxWait (pollStopTick s stableFor maxWait)
        = true ∧
      (∀ u, 1 ≤ u → u < pollStopTick s stableFor maxWait →
        stopBreak s stableFor maxWait u = false)) ∧
    pollStopTick demoStream 6 60 = 9 := by
  constructor
  · intro s sf mw
    obtain ⟨h1, -, h3⟩ := pollStopTick_spec s sf mw
    exact ⟨h1, h3⟩
  · decide

/-- C5, witness: on the concrete stream the exit test indeed fails at
tick 5, which lies before the stopping tick. -/
theorem c5_poller_stop_witness : stopBreak demoStream 6 60 5 = false :=
  (c5_poller_stop.1 demoStream 6 60).2 5 (by decide) (by decide)

/-- C5, counterexample: with the spec's simulated shape sequence and
`stableDuration = 6` the poller does not stop at tick 8 (the
unchanged-counter is only 5 there; the stop happens at tick 9). -/
theorem c5_counterexample : pollStopTick demoStream 6 60 ≠ 8 := by decide

/-- C6: with zero extracted CourseRecords the query short-circuits to the
"no courses found" outcome — no merge, pivot or average is computed — and
the same holds through the full query pipeline for a snapshot that has a
valid header row and no data rows. -/
theorem c6_empty_short_circuit :
    (∀ grades : List GradeRecord,
      processQuery [] grades = QueryOutcome.noCourses) ∧
    (∀ (grades : List GradeRecord) (header : List String),
      headersPresent header = true →
      runQuery [header] grades = Except.ok QueryOutcome.noCourses) := by
  constructor
  · intro grades
    rfl
  · intro grades header h
    unfold headersPresent at h
    rw [Bool.and_eq_true, Bool.and_eq_true] at h
    obtain ⟨⟨h1, h2⟩, h3⟩ := h
    rcases Option.isSome_iff_exists.1 h1 with ⟨iy, hy⟩
    rcases Option.isSome_iff_exists.1 h2 with ⟨isem, hs⟩
    rcases Option.isSome_iff_exists.1 h3 with ⟨ic, hc⟩
    unfold runQuery extractCourses
    dsimp only
    rw [hy, hs, hc]
    rfl

/-- C6, witness: the pipeline short-circuit on a concrete header-only
snapshot. -/
theorem c6_empty_short_circuit_witness :
    runQuery [["ACADEMIC YEAR", "SEM", "COURSE NAME"]] []
      = Except.ok QueryOutcome.noCourses :=
  c6_empty_short_circuit.2 [] ["ACADEMIC YEAR", "SEM", "COURSE NAME"]
    (by decide)

/-- C7, amended: the course extractor raises an (uncaught) `KeyError`
exactly when the expected header names are absent from the snapshot's
header row — the exception crashes the query, it is not converted to the
"no courses found" message — and when the headers are present it returns
one record per remaining row, in the table's row order, with row 0
dropped. -/
theorem c7_extractor :
    ∀ (header : List String) (rows : List (List String)),
      (extractCourses (header :: rows) = Except.error QueryError.keyError ↔
        headersPresent header = false) ∧
      (headersPresent header = true →
        ∃ f : List String → RawCourse,
          extractCourses (header :: rows) = Except.ok (rows.map f)) := by
  intro header rows
  constructor
  · cases hy : (header.map renameHeader).findIdx? (· = "Year") with
    | none => simp [extractCourses, headersPresent, hy]
    | some iy =>
      cases hs : (header.map renameHeader).findIdx? (· = "Semester") with
      | none => simp [extractCourses, headersPresent, hy, hs]
      | some isem =>
        cases hc : (header.map renameHeader).findIdx? (· = "Course") with
        | none => simp [extractCourses, headersPresent, hy, hs, hc]
        | some ic => simp [extractCourses, headersPresent, hy, hs, hc]
  · intro hp
    unfold headersPresent at hp
    rw [Bool.and_eq_true, Bool.and_eq_true] at hp
    obtain ⟨⟨h1, h2⟩, h3⟩ := hp
    rcases Option.isSome_iff_exists.1 h1 with ⟨iy, hy⟩
    rcases Option.isSome_iff_exists.1 h2 with ⟨isem, hs⟩
    rcases Option.isSome_iff_exists.1 h3 with ⟨ic, hc⟩
    refine ⟨fun r => ⟨r.getD iy "", r.getD isem "", r.getD ic ""⟩, ?_⟩
    unfold extractCourses
    dsimp only
    rw [hy, hs, hc]

/-- C7, witness: a snapshot with the expected headers extracts its single
data row. -/
theorem c7_extractor_witness :
    ∃ f : List String → RawCourse,
      extractCourses
        (["ACADEMIC YEAR", "SEM", "COURSE NAME"] :: [["2023-24", "1", "CS101"]])
        = Except.ok ([["2023-24", "1", "CS101"]].map f) :=
  (c7_extractor ["ACADEMIC YEAR", "SEM", "COURSE NAME"]
    [["2023-24", "1", "CS101"]]).2 (by decide)

/-- C7, counterexample: on a snapshot without the expected headers the
query ends in the uncaught `KeyError`, not in the "no courses found"
outcome the claim promises. -/
theorem c7_counterexample :
    runQuery [["COL1", "COL2"], ["a", "b"]] []
      = Except.error QueryError.keyError ∧
    runQuery [["COL1", "COL2"], ["a", "b"]] []
      ≠ Except.ok QueryOutcome.noCourses := by
  refine ⟨rfl, ?_⟩
  intro h
  exact Except.noConfusion h

/-- C9: on every behaviour of the external browser — success, empty
result, or an error at any step — the query's trace acquires the session
once and releases it exactly once, the release being the final resource
event; no live session leaks into the next query. -/
theorem c9_release_on_all_paths :
    ∀ b : Behavior,
      (getProfessorCoursesRun b).events.count Ev.acquire = 1 ∧
      (getProfessorCoursesRun b).events.count Ev.release = 1 ∧
      (getProfessorCoursesRun b).events.getLast? = some Ev.release := by
  intro b
  obtain ⟨n1, n2, n3, n4, n5, n6, snap⟩ := b
  cases n1 <;> cases n2 <;> cases n3 <;> cases n4 <;> cases n5 <;> cases n6 <;>
    exact ⟨rfl, rfl, rfl⟩

/-- C10: the first sample leaves the unchanged-counter at 0 (comparison
needs a previous sample), so the counter after `t` ticks is at most
`t - 1`, and the stability condition `stable_duration ≤ counter` can hold
only once at least `stable_duration + 1` samples have been taken. -/
theorem c10_first_sample :
    (∀ s : ℕ → ℕ × ℕ, stableAfter s 1 = 0) ∧
    (∀ (s : ℕ → ℕ × ℕ) (stableFor t : ℕ), 1 ≤ t →
      stableFor ≤ stableAfter s t → stableFor + 1 ≤ t) := by
  constructor
  · intro s
    rfl
  · intro s sf t ht h
    have h2 := stableAfter_le s t
    omega

/-- C10, witness: on a constant stream the counter after 3 ticks is 2, so
a stability threshold of 2 indeed requires at least 3 ticks. -/
theorem c10_first_sample_witness :
    2 + 1 ≤ 3 ∧ stableAfter demoConstStream 1 = 0 :=
  ⟨c10_first_sample.2 demoConstStream 2 3 (by decide) (by decide),
   c10_first_sample.1 demoConstStream⟩
